import Mathlib

/-!
Verification of the inventory management system (`inventory_system.py`).

The Python class `InventorySystem` holds a `stock_data` dictionary and a
`logs` list.  Because `load_data` assigns `self.stock_data = json.load(f)`
without validation, after a load the mapping can be any JSON value, so the
embedding models `stock_data` as a JSON value and each operation returns
`Except PyErr _`, where `PyErr` tracks the Python exceptions that can escape
an operation (TypeError, AttributeError, KeyError).  Arguments of the public
operations are dynamically typed in Python; they are modelled by `PyVal`.

File input and output is abstracted: a file is represented by the outcome of
opening and JSON-decoding it (`FileContent`), i.e. a parsed JSON value or one
of the three failure modes that the handlers of `load_data` distinguish.
The fidelity of `json.dump` / `json.load` themselves is assumed by this
abstraction; everything the Python code does around them is modelled.
-/

/-- JSON values, as produced by `json.load`.  Object fields are kept in
insertion order, matching Python `dict` iteration order.  (JSON numbers are
restricted to integers here; the repository only ever stores integer
quantities.) -/
inductive Json where
  | null : Json
  | bool (b : Bool) : Json
  | int (n : Int) : Json
  | str (s : String) : Json
  | arr (xs : List Json) : Json
  | obj (kvs : List (String × Json)) : Json

/-- Python run-time values that can be passed as arguments to the public
operations (the dynamically typed surface). -/
inductive PyVal where
  | none : PyVal
  | bool (b : Bool) : PyVal
  | int (n : Int) : PyVal
  | str (s : String) : PyVal
  | list (xs : List PyVal) : PyVal

/-- Python exceptions that can escape an operation of `InventorySystem`. -/
inductive PyErr where
  | typeError : PyErr
  | attributeError : PyErr
  | keyError : PyErr
deriving DecidableEq, Repr

/-- Python truthiness of an argument value (`not x` negates this). -/
def pyTruthy : PyVal → Bool
  | .none => false
  | .bool b => b
  | .int n => n != 0
  | .str s => s != ""
  | .list xs => !xs.isEmpty

/-- Python check `isinstance(x, str)` on an argument value. -/
def isStrV : PyVal → Bool
  | .str _ => true
  | _ => false

/-- Python check `isinstance(x, int)` on an argument value.  In Python `bool` is a
subclass of `int`, so booleans pass this check. -/
def isIntV : PyVal → Bool
  | .int _ => true
  | .bool _ => true
  | _ => false

/-- The integer value of an argument that passed `isinstance(x, int)`
(`True` counts as 1 and `False` as 0). -/
def pyIntVal : PyVal → Int
  | .int n => n
  | .bool b => if b then 1 else 0
  | _ => 0

/-- The string value of an argument that passed `isinstance(x, str)`. -/
def pyStrVal : PyVal → String
  | .str s => s
  | _ => ""

/-- Python truthiness of the value stored in `self.stock_data`
(`if not self.stock_data:`). -/
def pyTruthyJson : Json → Bool
  | .null => false
  | .bool b => b
  | .int n => n != 0
  | .str s => s != ""
  | .arr xs => !xs.isEmpty
  | .obj kvs => !kvs.isEmpty

/-- Lookup (`d.get(k)` and `k in d`) on a Python dict in insertion order. -/
def dictGet : List (String × Json) → String → Option Json
  | [], _ => Option.none
  | (k, v) :: rest, s => if k = s then some v else dictGet rest s

/-- Assignment `d[k] = v` on a Python dict: update the existing slot in place, or
append a new binding at the end. -/
def dictSet : List (String × Json) → String → Json → List (String × Json)
  | [], s, v => [(s, v)]
  | (k, w) :: rest, s, v =>
      if k = s then (s, v) :: rest else (k, w) :: dictSet rest s v

/-- Deletion `del d[k]` on a Python dict. -/
def dictDel : List (String × Json) → String → List (String × Json)
  | [], _ => []
  | (k, w) :: rest, s =>
      if k = s then dictDel rest s else (k, w) :: dictDel rest s

/-- Key membership `k in d` on a Python dict. -/
def containsKey (kvs : List (String × Json)) (s : String) : Bool :=
  (dictGet kvs s).isSome

/-- Python `x + q` for a stored value and an int: defined for ints and bools
(`True + 1 == 2` in Python), a `TypeError` otherwise. -/
def pyAddInt : Json → Int → Except PyErr Int
  | .int n, q => .ok (n + q)
  | .bool b, q => .ok ((if b then 1 else 0) + q)
  | _, _ => .error .typeError

/-- Python `x - q` for a stored value and an int. -/
def pySubInt : Json → Int → Except PyErr Int
  | .int n, q => .ok (n - q)
  | .bool b, q => .ok ((if b then 1 else 0) - q)
  | _, _ => .error .typeError

/-- Python `x < t` for a stored value and an int threshold. -/
def pyLtInt : Json → Int → Except PyErr Bool
  | .int n, t => .ok (decide (n < t))
  | .bool b, t => .ok (decide ((if b then (1 : Int) else 0) < t))
  | _, _ => .error .typeError

/-- The state of an `InventorySystem` instance: the `stock_data` dict (an
arbitrary JSON value once `load_data` has run) and the `logs` list. -/
structure InventorySystem where
  stock_data : Json
  logs : List String

/-- Constructor `InventorySystem.__init__`: empty dict, empty log. -/
def InventorySystem.init : InventorySystem :=
  ⟨Json.obj [], []⟩

/-- Body of `add_item` once both validation checks have passed: `item` is a
non-empty string `s` and `qty` is a (Python) int `q > 0`.  `now` stands for
the `datetime.now()` timestamp captured in the log message. -/
def addItemCore (st : InventorySystem) (s : String) (q : Int) (now : String) :
    Except PyErr (Bool × InventorySystem) :=
  match st.stock_data with
  | .obj kvs =>
      match pyAddInt ((dictGet kvs s).getD (.int 0)) q with
      | .ok n =>
          let msg := now ++ ": Added " ++ toString q ++ " of " ++ s
          .ok (true, ⟨.obj (dictSet kvs s (.int n)), st.logs ++ [msg]⟩)
      | .error e => .error e
  | _ => .error .attributeError

/-- Method `InventorySystem.add_item`. -/
def add_item (st : InventorySystem) (item qty : PyVal) (now : String) :
    Except PyErr (Bool × InventorySystem) :=
  if !pyTruthy item || !isStrV item then .ok (false, st)
  else if !isIntV qty || pyIntVal qty ≤ 0 then .ok (false, st)
  else addItemCore st (pyStrVal item) (pyIntVal qty) now

/-- The `try` body of `remove_item`: exceptions raised here are returned as
`.error` and caught by the caller.  No mutation precedes a raise, so the
pre-state is still the state at the `except` clause. -/
def removeItemTry (st : InventorySystem) (s : String) (q : Int) :
    Except PyErr (Bool × InventorySystem) :=
  match st.stock_data with
  | .obj kvs =>
      if h : (dictGet kvs s).isSome then
        match pySubInt ((dictGet kvs s).get h) q with
        | .ok n =>
            if n ≤ 0 then .ok (true, ⟨.obj (dictDel kvs s), st.logs⟩)
            else .ok (true, ⟨.obj (dictSet kvs s (.int n)), st.logs⟩)
        | .error e => .error e
      else .ok (false, st)
  | .arr xs =>
      if xs.any (fun x => match x with | .str t => t = s | _ => false) then
        .error .typeError
      else .ok (false, st)
  | .str t =>
      if s.data <:+: t.data then .error .typeError else .ok (false, st)
  | _ => .error .typeError

/-- Method `InventorySystem.remove_item`: type and positivity checks, then the
`try` body with `KeyError` and `TypeError` handlers that return `False`. -/
def remove_item (st : InventorySystem) (item qty : PyVal) :
    Except PyErr (Bool × InventorySystem) :=
  if !isStrV item || !isIntV qty then .ok (false, st)
  else if pyIntVal qty ≤ 0 then .ok (false, st)
  else
    match removeItemTry st (pyStrVal item) (pyIntVal qty) with
    | .ok r => .ok r
    | .error .keyError => .ok (false, st)
    | .error .typeError => .ok (false, st)
    | .error e => .error e

/-- Method `InventorySystem.get_qty`: returns the stored value (0 when the key is
absent or the argument is not a string); raises `AttributeError` when
`stock_data` is not a dict. -/
def get_qty (st : InventorySystem) (item : PyVal) : Except PyErr Json :=
  if !isStrV item then .ok (.int 0)
  else match st.stock_data with
    | .obj kvs => .ok ((dictGet kvs (pyStrVal item)).getD (.int 0))
    | _ => .error .attributeError

/-- The `for item, qty in ...items():` loop of `check_low_items`, in
iteration order; the first failing comparison raises. -/
def lowLoop : List (String × Json) → Int → Except PyErr (List String)
  | [], _ => .ok []
  | (k, v) :: rest, t =>
      match pyLtInt v t with
      | .error e => .error e
      | .ok b =>
          match lowLoop rest t with
          | .error e => .error e
          | .ok l => .ok (if b then k :: l else l)

/-- Method `InventorySystem.check_low_items`. -/
def check_low_items (st : InventorySystem) (threshold : PyVal) :
    Except PyErr (List String) :=
  if !isIntV threshold || pyIntVal threshold < 0 then .ok []
  else match st.stock_data with
    | .obj kvs => lowLoop kvs (pyIntVal threshold)
    | _ => .error .attributeError

/-- Insertion by key into a key-sorted pair list (models
`sorted(self.stock_data.items())`; keys of a real dict are distinct). -/
def insertByKey (p : String × Json) : List (String × Json) → List (String × Json)
  | [] => [p]
  | q :: rest => if p.1 ≤ q.1 then p :: q :: rest else q :: insertByKey p rest

/-- Python `sorted` on the item pairs. -/
def sortByKey : List (String × Json) → List (String × Json)
  | [] => []
  | p :: rest => insertByKey p (sortByKey rest)

/-- Left-justify to width 20 (`f-string` `:20` on a string). -/
def padRight (s : String) (n : Nat) : String :=
  s ++ String.mk (List.replicate (n - s.length) ' ')

/-- Right-justify to width 5 (`f-string` `:5` on an int). -/
def padLeft (s : String) (n : Nat) : String :=
  String.mk (List.replicate (n - s.length) ' ') ++ s

/-- Rendering of one stored value in the report line. -/
def renderVal : Json → String
  | .int n => toString n
  | .bool b => if b then "1" else "0"
  | .str s => s
  | _ => ""

/-- One formatted report line (item left-justified to 20, value right-justified to 5). -/
def reportLine (p : String × Json) : String :=
  padRight p.1 20 ++ " -> " ++ padLeft (renderVal p.2) 5 ++ "\n"

/-- Method `InventorySystem.print_data`: renders the report; a pure read.  A falsy
`stock_data` prints the empty-inventory message; a truthy non-dict raises
`AttributeError` at `.items()`. -/
def print_data (st : InventorySystem) : Except PyErr String :=
  let bar := String.mk (List.replicate 40 '=')
  let header := "\n" ++ bar ++ "\n" ++ "Items Report" ++ "\n" ++ bar ++ "\n"
  if !pyTruthyJson st.stock_data then
    .ok (header ++ "Inventory is empty" ++ "\n" ++ bar ++ "\n")
  else match st.stock_data with
    | .obj kvs =>
        .ok (header ++ String.join ((sortByKey kvs).map reportLine) ++ bar ++ "\n")
    | _ => .error .attributeError

/-- The outcome of opening a path and JSON-decoding its contents, the
abstraction of the file system used by `load_data` and `save_data`:
the file is missing (`FileNotFoundError`), present but not valid JSON
(`json.JSONDecodeError`), unreadable (`IOError`), or decodes to a JSON
value. -/
inductive FileContent where
  | fileNotFound : FileContent
  | decodeError : FileContent
  | ioError : FileContent
  | stored (j : Json) : FileContent

/-- Method `InventorySystem.load_data`: on success the parsed value replaces
`stock_data` wholesale; `FileNotFoundError` resets `stock_data` to an empty
dict; the other two handlers leave the state untouched.  All three handlers
return `False`; nothing escapes. -/
def load_data (st : InventorySystem) (f : FileContent) : Bool × InventorySystem :=
  match f with
  | .stored j => (true, ⟨j, st.logs⟩)
  | .fileNotFound => (false, ⟨.obj [], st.logs⟩)
  | .decodeError => (false, st)
  | .ioError => (false, st)

/-- Method `InventorySystem.save_data`: dumps `stock_data` as JSON over the file
when the path is writable, returns `False` on `IOError` leaving the file
as it was. -/
def save_data (st : InventorySystem) (writeOk : Bool) (f : FileContent) :
    Bool × FileContent :=
  if writeOk then (true, .stored st.stock_data) else (false, f)

/-- One public operation together with its dynamically typed arguments and
its interaction with the environment (timestamp, file outcome). -/
inductive Op where
  | add (item qty : PyVal) (now : String) : Op
  | remove (item qty : PyVal) : Op
  | getQty (item : PyVal) : Op
  | checkLow (threshold : PyVal) : Op
  | report : Op
  | load (f : FileContent) : Op
  | save (writeOk : Bool) : Op

/-- Effect of one operation on the in-memory state; `.error` is an
exception escaping the operation. -/
def execOp (st : InventorySystem) : Op → Except PyErr InventorySystem
  | .add item qty now => (add_item st item qty now).map Prod.snd
  | .remove item qty => (remove_item st item qty).map Prod.snd
  | .getQty item => (get_qty st item).map (fun _ => st)
  | .checkLow t => (check_low_items st t).map (fun _ => st)
  | .report => (print_data st).map (fun _ => st)
  | .load f => .ok (load_data st f).2
  | .save _ => .ok st

/-- Run a sequence of operations from a state; stops at the first escaping
exception. -/
def runOps (st : InventorySystem) : List Op → Except PyErr InventorySystem
  | [] => .ok st
  | op :: rest =>
      match execOp st op with
      | .ok st' => runOps st' rest
      | .error e => .error e

/-- The stored value is an integer. -/
def isIntJ : Json → Bool
  | .int _ => true
  | _ => false

/-- The stored value is a strictly positive integer. -/
def isPosIntJ : Json → Bool
  | .int n => decide (0 < n)
  | _ => false

/-- Every stored value is an integer (the well-typed states: any state
reachable without loading an ill-typed file). -/
def intVals : List (String × Json) → Bool
  | [] => true
  | (_, v) :: rest => isIntJ v && intVals rest

/-- Every stored value is a strictly positive integer. -/
def posVals : List (String × Json) → Bool
  | [] => true
  | (_, v) :: rest => isPosIntJ v && posVals rest

/-- The `stock_data` value is a string-keyed object whose values are integers. -/
def IsIntMap : Json → Bool
  | .obj kvs => intVals kvs
  | _ => false

/-- The `stock_data` value is a string-keyed object whose values are positive
integers: the documented invariant. -/
def GoodMap : Json → Bool
  | .obj kvs => posVals kvs
  | _ => false

/-- An operation whose file input (if any) respects the invariant: a load
either fails or delivers an object of positive integers. -/
def loadsGood : Op → Bool
  | .load (.stored j) => GoodMap j
  | _ => true

/-- The quantity recorded for `s` (0 when absent or not an integer), the
reading `get_qty` gives of a state. -/
def jsonQty (j : Json) (s : String) : Int :=
  match j with
  | .obj kvs =>
      match dictGet kvs s with
      | some (.int n) => n
      | _ => 0
  | _ => 0

/-- Holds (as `true`) iff no exception escaped. -/
def isOkE {α : Type} : Except PyErr α → Bool
  | .ok _ => true
  | .error _ => false

/-- The list of item names whose integer value is below the threshold, in
iteration order (the pure reading of the loop of `check_low_items`). -/
def lowFilter (kvs : List (String × Json)) (t : Int) : List String :=
  (kvs.filter (fun kv => match kv.2 with
    | .int n => decide (n < t)
    | _ => false)).map Prod.fst

/-- The argument is valid text for an item name: a non-empty string (the
acceptance condition of the first check of `add_item`). -/
def validItem (v : PyVal) : Prop :=
  ∃ s, v = PyVal.str s ∧ s ≠ ""

/-- The argument is a valid quantity: a Python int (bools included, as in
Python) with positive value (the second check of `add_item`). -/
def validQty (v : PyVal) : Prop :=
  isIntV v = true ∧ 0 < pyIntVal v

/-! ### Helper lemmas about the dict operations and the value predicates -/

theorem isIntJ_iff {v : Json} : isIntJ v = true ↔ ∃ n, v = Json.int n := by
  cases v <;> simp [isIntJ]

theorem isPosIntJ_iff {v : Json} :
    isPosIntJ v = true ↔ ∃ n, v = Json.int n ∧ 0 < n := by
  cases v <;> simp [isPosIntJ]

theorem posVals_isIntJ {kvs : List (String × Json)} (h : posVals kvs = true) :
    intVals kvs = true := by
  induction kvs with
  | nil => rfl
  | cons kv rest ih =>
      obtain ⟨k, v⟩ := kv
      simp only [posVals, Bool.and_eq_true] at h
      obtain ⟨n, hn, -⟩ := isPosIntJ_iff.mp h.1
      simp only [intVals, Bool.and_eq_true]
      exact ⟨by simp [hn, isIntJ], ih h.2⟩

theorem goodMap_isIntMap {j : Json} (h : GoodMap j = true) :
    IsIntMap j = true := by
  cases j <;> simp_all [GoodMap, IsIntMap, posVals_isIntJ]

theorem intVals_dictGet {kvs : List (String × Json)} {s : String} {v : Json}
    (h : intVals kvs = true) (hg : dictGet kvs s = some v) :
    ∃ n, v = Json.int n := by
  induction kvs with
  | nil => simp [dictGet] at hg
  | cons kv rest ih =>
      obtain ⟨k, w⟩ := kv
      simp only [intVals, Bool.and_eq_true] at h
      simp only [dictGet] at hg
      by_cases hk : k = s
      · rw [if_pos hk] at hg
        obtain ⟨n, hn⟩ := isIntJ_iff.mp h.1
        exact ⟨n, by rw [← Option.some_inj.mp hg, hn]⟩
      · rw [if_neg hk] at hg
        exact ih h.2 hg

theorem posVals_dictGet {kvs : List (String × Json)} {s : String} {v : Json}
    (h : posVals kvs = true) (hg : dictGet kvs s = some v) :
    ∃ n, v = Json.int n ∧ 0 < n := by
  induction kvs with
  | nil => simp [dictGet] at hg
  | cons kv rest ih =>
      obtain ⟨k, w⟩ := kv
      simp only [posVals, Bool.and_eq_true] at h
      simp only [dictGet] at hg
      by_cases hk : k = s
      · rw [if_pos hk] at hg
        obtain ⟨n, hn, hpos⟩ := isPosIntJ_iff.mp h.1
        exact ⟨n, by rw [← Option.some_inj.mp hg, hn], hpos⟩
      · rw [if_neg hk] at hg
        exact ih h.2 hg

theorem dictGet_dictSet_self (kvs : List (String × Json)) (s : String) (v : Json) :
    dictGet (dictSet kvs s v) s = some v := by
  induction kvs with
  | nil => simp [dictSet, dictGet]
  | cons kv rest ih =>
      obtain ⟨k, w⟩ := kv
      by_cases hk : k = s
      · simp [dictSet, dictGet, hk]
      · simp [dictSet, dictGet, hk, ih]

theorem posVals_dictSet {kvs : List (String × Json)} {s : String} {n : Int}
    (h : posVals kvs = true) (hn : 0 < n) :
    posVals (dictSet kvs s (Json.int n)) = true := by
  induction kvs with
  | nil => simp [dictSet, posVals, isPosIntJ, hn]
  | cons kv rest ih =>
      obtain ⟨k, w⟩ := kv
      simp only [posVals, Bool.and_eq_true] at h
      by_cases hk : k = s
      · simp [dictSet, hk, posVals, isPosIntJ, hn, h.2]
      · simp only [dictSet, if_neg hk, posVals, Bool.and_eq_true]
        exact ⟨h.1, ih h.2⟩

theorem posVals_dictDel {kvs : List (String × Json)} {s : String}
    (h : posVals kvs = true) :
    posVals (dictDel kvs s) = true := by
  induction kvs with
  | nil => rfl
  | cons kv rest ih =>
      obtain ⟨k, w⟩ := kv
      simp only [posVals, Bool.and_eq_true] at h
      by_cases hk : k = s
      · simpa [dictDel, hk] using ih h.2
      · simp only [dictDel, if_neg hk, posVals, Bool.and_eq_true]
        exact ⟨h.1, ih h.2⟩

theorem lowLoop_eq_lowFilter {kvs : List (String × Json)} (t : Int)
    (h : intVals kvs = true) :
    lowLoop kvs t = .ok (lowFilter kvs t) := by
  induction kvs with
  | nil => rfl
  | cons kv rest ih =>
      obtain ⟨k, w⟩ := kv
      simp only [intVals, Bool.and_eq_true] at h
      obtain ⟨n, rfl⟩ := isIntJ_iff.mp h.1
      simp only [lowLoop, pyLtInt, ih h.2, lowFilter, List.filter_cons]
      by_cases hn : n < t
      · simp [hn, lowFilter]
      · simp [hn, lowFilter]

theorem mem_lowFilter_keys {kvs : List (String × Json)} {t : Int} {s : String}
    (h : s ∈ lowFilter kvs t) : s ∈ kvs.map Prod.fst := by
  simp only [lowFilter, List.mem_map] at h
  obtain ⟨kv, hmem, rfl⟩ := h
  exact List.mem_map.mpr ⟨kv, List.mem_of_mem_filter hmem, rfl⟩

theorem mem_lowFilter_iff {kvs : List (String × Json)} {t : Int} {s : String}
    (hints : intVals kvs = true) (hnd : (kvs.map Prod.fst).Nodup) :
    s ∈ lowFilter kvs t ↔ ∃ n, dictGet kvs s = some (Json.int n) ∧ n < t := by
  induction kvs with
  | nil => simp [lowFilter, dictGet]
  | cons kv rest ih =>
      obtain ⟨k, w⟩ := kv
      simp only [intVals, Bool.and_eq_true] at hints
      obtain ⟨n, rfl⟩ := isIntJ_iff.mp hints.1
      simp only [List.map_cons, List.nodup_cons] at hnd
      have ihr := ih hints.2 hnd.2
      have hlf : lowFilter ((k, Json.int n) :: rest) t
          = if n < t then k :: lowFilter rest t else lowFilter rest t := by
        by_cases hn : n < t <;> simp [lowFilter, List.filter_cons, hn]
      by_cases hk : k = s
      · obtain rfl := hk
        have hdg : dictGet ((k, Json.int n) :: rest) k = some (Json.int n) := by
          simp [dictGet]
        rw [hlf, hdg]
        by_cases hn : n < t
        · simp only [if_pos hn]
          constructor
          · intro _
            exact ⟨n, rfl, hn⟩
          · intro _
            exact List.mem_cons_self k _
        · simp only [if_neg hn]
          constructor
          · intro hmem
            exact absurd (mem_lowFilter_keys hmem) hnd.1
          · rintro ⟨m, hm, hmt⟩
            have hnm : n = m := by
              injection hm with h0
              injection h0
            exact absurd (hnm ▸ hmt) hn
      · have hdg : dictGet ((k, Json.int n) :: rest) s = dictGet rest s := by
          simp [dictGet, hk]
        rw [hlf, hdg]
        by_cases hn : n < t
        · simp only [if_pos hn, List.mem_cons]
          constructor
          · intro hmem
            rcases hmem with hmem | hmem
            · exact absurd hmem.symm hk
            · exact ihr.mp hmem
          · intro hmem
            exact Or.inr (ihr.mpr hmem)
        · simp only [if_neg hn]
          exact ihr

/-! ### No escaping exception from well-typed states -/

theorem add_item_int_ok (st : InventorySystem) (item qty : PyVal) (now : String)
    (h : IsIntMap st.stock_data = true) :
    ∃ r, add_item st item qty now = .ok r := by
  obtain ⟨sd, logs⟩ := st
  unfold add_item
  split
  · exact ⟨_, rfl⟩
  · split
    · exact ⟨_, rfl⟩
    · cases sd with
      | obj kvs =>
          simp only [IsIntMap] at h
          simp only [addItemCore]
          cases hget : dictGet kvs (pyStrVal item) with
          | none => exact ⟨_, rfl⟩
          | some v =>
              obtain ⟨n, rfl⟩ := intVals_dictGet h hget
              exact ⟨_, rfl⟩
      | null => simp [IsIntMap] at h
      | bool b => simp [IsIntMap] at h
      | int n => simp [IsIntMap] at h
      | str s2 => simp [IsIntMap] at h
      | arr xs => simp [IsIntMap] at h

theorem pySubInt_ok_or_type (v : Json) (q : Int) :
    (∃ n, pySubInt v q = .ok n) ∨ pySubInt v q = .error .typeError := by
  cases v <;> simp [pySubInt]

theorem removeItemTry_ok_or_type (st : InventorySystem) (s : String) (q : Int) :
    (∃ r, removeItemTry st s q = .ok r) ∨ removeItemTry st s q = .error .typeError := by
  obtain ⟨sd, logs⟩ := st
  cases sd with
  | obj kvs =>
      simp only [removeItemTry]
      by_cases hg : (dictGet kvs s).isSome
      · rw [dif_pos hg]
        rcases pySubInt_ok_or_type ((dictGet kvs s).get hg) q with ⟨n, hn⟩ | hn
        · simp only [hn]
          by_cases hle : n ≤ 0
          · rw [if_pos hle]; exact Or.inl ⟨_, rfl⟩
          · rw [if_neg hle]; exact Or.inl ⟨_, rfl⟩
        · simp only [hn]; exact Or.inr trivial
      · rw [dif_neg hg]; exact Or.inl ⟨_, rfl⟩
  | arr xs =>
      simp only [removeItemTry]
      by_cases hmem :
          (xs.any (fun x => match x with | .str t => t = s | _ => false)) = true
      · rw [if_pos hmem]; exact Or.inr rfl
      · rw [if_neg hmem]; exact Or.inl ⟨_, rfl⟩
  | str t =>
      simp only [removeItemTry]
      by_cases hsub : s.data <:+: t.data
      · rw [if_pos hsub]; exact Or.inr rfl
      · rw [if_neg hsub]; exact Or.inl ⟨_, rfl⟩
  | null => exact Or.inr rfl
  | bool b => exact Or.inr rfl
  | int n => exact Or.inr rfl

theorem remove_item_isOk (st : InventorySystem) (item qty : PyVal) :
    ∃ r, remove_item st item qty = .ok r := by
  unfold remove_item
  split
  · exact ⟨_, rfl⟩
  · split
    · exact ⟨_, rfl⟩
    · rcases removeItemTry_ok_or_type st (pyStrVal item) (pyIntVal qty) with ⟨r, hr⟩ | hr
      · rw [hr]; exact ⟨r, rfl⟩
      · rw [hr]; exact ⟨_, rfl⟩

theorem get_qty_int_ok (st : InventorySystem) (item : PyVal)
    (h : IsIntMap st.stock_data = true) :
    ∃ v, get_qty st item = .ok v := by
  obtain ⟨sd, logs⟩ := st
  unfold get_qty
  split
  · exact ⟨_, rfl⟩
  · cases sd with
    | obj kvs => exact ⟨_, rfl⟩
    | null => simp [IsIntMap] at h
    | bool b => simp [IsIntMap] at h
    | int n => simp [IsIntMap] at h
    | str s2 => simp [IsIntMap] at h
    | arr xs => simp [IsIntMap] at h

theorem check_low_int_ok (st : InventorySystem) (t : PyVal)
    (h : IsIntMap st.stock_data = true) :
    ∃ l, check_low_items st t = .ok l := by
  obtain ⟨sd, logs⟩ := st
  unfold check_low_items
  split
  · exact ⟨_, rfl⟩
  · cases sd with
    | obj kvs =>
        simp only [IsIntMap] at h
        exact ⟨_, lowLoop_eq_lowFilter _ h⟩
    | null => simp [IsIntMap] at h
    | bool b => simp [IsIntMap] at h
    | int n => simp [IsIntMap] at h
    | str s2 => simp [IsIntMap] at h
    | arr xs => simp [IsIntMap] at h

theorem print_data_int_ok (st : InventorySystem)
    (h : IsIntMap st.stock_data = true) :
    ∃ r, print_data st = .ok r := by
  obtain ⟨sd, logs⟩ := st
  simp only [print_data]
  split
  · exact ⟨_, rfl⟩
  · cases sd with
    | obj kvs => exact ⟨_, rfl⟩
    | null => simp [IsIntMap] at h
    | bool b => simp [IsIntMap] at h
    | int n => simp [IsIntMap] at h
    | str s2 => simp [IsIntMap] at h
    | arr xs => simp [IsIntMap] at h

/-! ### Preservation of the positivity invariant -/

theorem add_item_good (st : InventorySystem) (item qty : PyVal) (now : String)
    (h : GoodMap st.stock_data = true) :
    ∃ b st', add_item st item qty now = .ok (b, st') ∧ GoodMap st'.stock_data = true := by
  obtain ⟨sd, logs⟩ := st
  unfold add_item
  split
  · exact ⟨false, _, rfl, h⟩
  · split
    · exact ⟨false, _, rfl, h⟩
    · rename_i hc1 hc2
      have hq : 0 < pyIntVal qty := by
        simp only [Bool.or_eq_true, Bool.not_eq_true', decide_eq_true_eq, not_or,
          not_le, Bool.not_eq_false] at hc2
        exact hc2.2
      cases sd with
      | obj kvs =>
          simp only [GoodMap] at h
          simp only [addItemCore]
          cases hget : dictGet kvs (pyStrVal item) with
          | none =>
              refine ⟨true, _, rfl, ?_⟩
              exact posVals_dictSet h (by omega)
          | some v =>
              obtain ⟨n, rfl, hpos⟩ := posVals_dictGet h hget
              refine ⟨true, _, rfl, ?_⟩
              exact posVals_dictSet h (by omega)
      | null => simp [GoodMap] at h
      | bool b => simp [GoodMap] at h
      | int n => simp [GoodMap] at h
      | str s2 => simp [GoodMap] at h
      | arr xs => simp [GoodMap] at h

theorem remove_item_good (st : InventorySystem) (item qty : PyVal)
    (h : GoodMap st.stock_data = true) :
    ∃ b st', remove_item st item qty = .ok (b, st') ∧ GoodMap st'.stock_data = true := by
  obtain ⟨sd, logs⟩ := st
  unfold remove_item
  split
  · exact ⟨false, _, rfl, h⟩
  · split
    · exact ⟨false, _, rfl, h⟩
    · cases sd with
      | obj kvs =>
          simp only [GoodMap] at h
          simp only [removeItemTry]
          by_cases hg : (dictGet kvs (pyStrVal item)).isSome
          · rw [dif_pos hg]
            obtain ⟨v, hv⟩ := Option.isSome_iff_exists.mp hg
            obtain ⟨n, rfl, hpos⟩ := posVals_dictGet h hv
            have hgv : (dictGet kvs (pyStrVal item)).get hg = Json.int n := by
              simp [hv]
            rw [hgv]
            simp only [pySubInt]
            by_cases hle : n - pyIntVal qty ≤ 0
            · rw [if_pos hle]
              exact ⟨true, _, rfl, posVals_dictDel h⟩
            · rw [if_neg hle]
              exact ⟨true, _, rfl, posVals_dictSet h (by omega)⟩
          · rw [dif_neg hg]
            exact ⟨false, _, rfl, h⟩
      | null => simp [GoodMap] at h
      | bool b => simp [GoodMap] at h
      | int n => simp [GoodMap] at h
      | str s2 => simp [GoodMap] at h
      | arr xs => simp [GoodMap] at h

theorem execOp_good (st : InventorySystem) (op : Op)
    (hg : GoodMap st.stock_data = true) (hl : loadsGood op = true) :
    ∃ st', execOp st op = .ok st' ∧ GoodMap st'.stock_data = true := by
  cases op with
  | add item qty now =>
      obtain ⟨b, st', hr, hgood⟩ := add_item_good st item qty now hg
      exact ⟨st', by simp [execOp, hr, Except.map], hgood⟩
  | remove item qty =>
      obtain ⟨b, st', hr, hgood⟩ := remove_item_good st item qty hg
      exact ⟨st', by simp [execOp, hr, Except.map], hgood⟩
  | getQty item =>
      obtain ⟨v, hv⟩ := get_qty_int_ok st item (goodMap_isIntMap hg)
      exact ⟨st, by simp [execOp, hv, Except.map], hg⟩
  | checkLow t =>
      obtain ⟨l, hl2⟩ := check_low_int_ok st t (goodMap_isIntMap hg)
      exact ⟨st, by simp [execOp, hl2, Except.map], hg⟩
  | report =>
      obtain ⟨r, hr⟩ := print_data_int_ok st (goodMap_isIntMap hg)
      exact ⟨st, by simp [execOp, hr, Except.map], hg⟩
  | load f =>
      cases f with
      | stored j => exact ⟨⟨j, st.logs⟩, rfl, hl⟩
      | fileNotFound => exact ⟨⟨.obj [], st.logs⟩, rfl, rfl⟩
      | decodeError => exact ⟨st, rfl, hg⟩
      | ioError => exact ⟨st, rfl, hg⟩
  | save w => exact ⟨st, rfl, hg⟩

theorem runOps_good (ops : List Op) :
    ∀ st : InventorySystem, GoodMap st.stock_data = true → ops.all loadsGood = true →
    ∃ st', runOps st ops = .ok st' ∧ GoodMap st'.stock_data = true := by
  induction ops with
  | nil => exact fun st h _ => ⟨st, rfl, h⟩
  | cons op rest ih =>
      intro st h hall
      simp only [List.all_cons, Bool.and_eq_true] at hall
      obtain ⟨st', hstep, h'⟩ := execOp_good st op h hall.1
      obtain ⟨st'', hrun, h''⟩ := ih st' h' hall.2
      refine ⟨st'', ?_, h''⟩
      simp only [runOps, hstep]
      exact hrun

/-! ### Claim theorems -/

/-- Claim C1 (corrected): the claim as stated is false, because `load_data`
installs the parsed file content without validation.  Loading a JSON object
that maps a key to 0 succeeds and leaves a stored quantity that is not a
positive integer. -/
theorem invariant_positive_cex :
    runOps InventorySystem.init
        [Op.load (FileContent.stored (Json.obj [("apple", Json.int 0)]))] =
      .ok ⟨Json.obj [("apple", Json.int 0)], []⟩ ∧
    GoodMap (Json.obj [("apple", Json.int 0)]) = false :=
  ⟨rfl, rfl⟩

/-- Claim C1 (amended): for every sequence of public operations starting
from an empty inventory in which every successful load reads a file whose
JSON document is a string-keyed object with only positive integer values,
execution completes without an escaping exception and every quantity stored
in the mapping afterwards is a positive integer (no key maps to a value
that is not a positive integer). -/
theorem invariant_positive_of_wellformed_loads (ops : List Op)
    (h : ops.all loadsGood = true) :
    ∃ st', runOps InventorySystem.init ops = .ok st' ∧
      GoodMap st'.stock_data = true :=
  runOps_good ops InventorySystem.init rfl h

/-- Witness for the amended claim C1 at a concrete operation sequence. -/
theorem invariant_positive_of_wellformed_loads_witness :
    ([Op.add (PyVal.str "apple") (PyVal.int 10) "t1",
      Op.remove (PyVal.str "apple") (PyVal.int 15),
      Op.load (FileContent.stored (Json.obj [("pear", Json.int 2)])),
      Op.save true].all loadsGood = true) ∧
    ∃ st', runOps InventorySystem.init
        [Op.add (PyVal.str "apple") (PyVal.int 10) "t1",
         Op.remove (PyVal.str "apple") (PyVal.int 15),
         Op.load (FileContent.stored (Json.obj [("pear", Json.int 2)])),
         Op.save true] = .ok st' ∧
      GoodMap st'.stock_data = true :=
  ⟨rfl, invariant_positive_of_wellformed_loads _ rfl⟩

/-- Claim C2 (corrected): the claim as stated is false.  After loading a
file whose JSON maps an item to a string, `add_item` on that item raises a
`TypeError` past its boundary (there is no handler around the addition). -/
theorem no_exception_cex :
    runOps InventorySystem.init
      [Op.load (FileContent.stored (Json.obj [("apple", Json.str "ten")])),
       Op.add (PyVal.str "apple") (PyVal.int 1) "t"] =
      .error PyErr.typeError :=
  rfl

/-- Claim C2 (amended): from every state whose mapping is a string-keyed
object with integer values (every state reachable without loading an
ill-typed file), every public operation on every input returns its
success/failure indicator without raising past its boundary. -/
theorem no_exception_on_int_map (st : InventorySystem) (op : Op)
    (h : IsIntMap st.stock_data = true) :
    isOkE (execOp st op) = true := by
  cases op with
  | add item qty now =>
      obtain ⟨r, hr⟩ := add_item_int_ok st item qty now h
      simp [execOp, hr, Except.map, isOkE]
  | remove item qty =>
      obtain ⟨r, hr⟩ := remove_item_isOk st item qty
      simp [execOp, hr, Except.map, isOkE]
  | getQty item =>
      obtain ⟨v, hv⟩ := get_qty_int_ok st item h
      simp [execOp, hv, Except.map, isOkE]
  | checkLow t =>
      obtain ⟨l, hl⟩ := check_low_int_ok st t h
      simp [execOp, hl, Except.map, isOkE]
  | report =>
      obtain ⟨r, hr⟩ := print_data_int_ok st h
      simp [execOp, hr, Except.map, isOkE]
  | load f => cases f <;> simp [execOp, isOkE, load_data]
  | save w => simp [execOp, isOkE]

/-- Witness for the amended claim C2 at a concrete state and operation. -/
theorem no_exception_on_int_map_witness :
    IsIntMap (Json.obj [("apple", Json.int 2)]) = true ∧
    isOkE (execOp ⟨Json.obj [("apple", Json.int 2)], []⟩
      (Op.add (PyVal.str "apple") (PyVal.int 3) "t")) = true :=
  ⟨rfl, no_exception_on_int_map _ _ rfl⟩

/-- Claim C3: for every item argument that is not non-empty text and for
every qty argument that is not a positive (Python) int — value ≤ 0,
non-integer, or wrong type — `add_item` returns `False` and leaves the
mapping and the log unchanged (the state is returned untouched). -/
theorem add_item_rejects_invalid (st : InventorySystem) (item qty : PyVal)
    (now : String) (h : ¬ validItem item ∨ ¬ validQty qty) :
    add_item st item qty now = .ok (false, st) := by
  unfold add_item
  by_cases hi : validItem item
  · obtain ⟨s, rfl, hs⟩ := hi
    have hq : ¬ validQty qty := by
      rcases h with h | h
      · exact absurd ⟨s, rfl, hs⟩ h
      · exact h
    have hbad : (!isIntV qty || decide (pyIntVal qty ≤ 0)) = true := by
      by_cases hqi : isIntV qty = true
      · have hle : pyIntVal qty ≤ 0 := by
          by_contra hpos
          exact hq ⟨hqi, lt_of_not_le hpos⟩
        simp [hle]
      · have hf : isIntV qty = false := by
          revert hqi
          cases isIntV qty <;> simp
        simp [hf]
    simp [pyTruthy, isStrV, hs, hbad]
  · have hbad : (!pyTruthy item || !isStrV item) = true := by
      cases item with
      | str s =>
          have hs : s = "" := by
            by_contra hne
            exact hi ⟨s, rfl, hne⟩
          subst hs
          simp [pyTruthy]
      | none => rfl
      | bool b => simp [isStrV]
      | int n => simp [isStrV]
      | list xs => simp [isStrV]
    simp [hbad]

/-- Witness for claim C3: a non-string item is rejected without any state
change. -/
theorem add_item_rejects_invalid_witness :
    (¬ validItem (PyVal.int 7) ∨ ¬ validQty (PyVal.int 5)) ∧
    add_item ⟨Json.obj [("apple", Json.int 2)], []⟩ (PyVal.int 7) (PyVal.int 5) "t" =
      .ok (false, ⟨Json.obj [("apple", Json.int 2)], []⟩) :=
  ⟨Or.inl (by simp [validItem]),
   add_item_rejects_invalid _ _ _ _ (Or.inl (by simp [validItem]))⟩

/-- Claim C4: for every non-empty string item and positive integer qty,
in a state whose mapping stores an integer (or nothing) at that item,
`add_item` increments the stored quantity by qty — creating the entry at
qty if the item was absent — appends exactly one log entry, and returns
`True`. -/
theorem add_item_valid_increments (st : InventorySystem)
    (kvs : List (String × Json)) (s : String) (q : Int) (now : String)
    (hst : st.stock_data = Json.obj kvs)
    (hs : s ≠ "") (hq : 0 < q)
    (hv : dictGet kvs s = Option.none ∨ ∃ n, dictGet kvs s = some (Json.int n)) :
    add_item st (PyVal.str s) (PyVal.int q) now =
      .ok (true, ⟨Json.obj (dictSet kvs s (Json.int (jsonQty st.stock_data s + q))),
        st.logs ++ [now ++ ": Added " ++ toString q ++ " of " ++ s]⟩) ∧
    jsonQty (Json.obj (dictSet kvs s (Json.int (jsonQty st.stock_data s + q)))) s =
      jsonQty st.stock_data s + q := by
  obtain ⟨sd, logs⟩ := st
  have hsd : sd = Json.obj kvs := hst
  subst hsd
  have hq2 : ¬ q ≤ 0 := not_le.mpr hq
  constructor
  · rcases hv with hv | ⟨n, hv⟩
    · simp [add_item, addItemCore, pyTruthy, isStrV, isIntV, pyIntVal, pyStrVal,
        hs, hq2, hv, jsonQty, pyAddInt]
    · simp [add_item, addItemCore, pyTruthy, isStrV, isIntV, pyIntVal, pyStrVal,
        hs, hq2, hv, jsonQty, pyAddInt]
  · simp [jsonQty, dictGet_dictSet_self]

/-- Witness for claim C4: adding 3 to an existing quantity of 2 stores 5,
logs one entry, and returns `True`. -/
theorem add_item_valid_increments_witness :
    ((⟨Json.obj [("apple", Json.int 2)], []⟩ : InventorySystem).stock_data =
      Json.obj [("apple", Json.int 2)]) ∧
    ("apple" : String) ≠ "" ∧ (0 : Int) < 3 ∧
    (dictGet [("apple", Json.int 2)] "apple" = Option.none ∨
      ∃ n, dictGet [("apple", Json.int 2)] "apple" = some (Json.int n)) ∧
    (add_item ⟨Json.obj [("apple", Json.int 2)], []⟩ (PyVal.str "apple")
        (PyVal.int 3) "t" =
      .ok (true, ⟨Json.obj (dictSet [("apple", Json.int 2)] "apple"
          (Json.int (jsonQty (Json.obj [("apple", Json.int 2)]) "apple" + 3))),
        [] ++ ["t" ++ ": Added " ++ toString (3 : Int) ++ " of " ++ "apple"]⟩) ∧
      jsonQty (Json.obj (dictSet [("apple", Json.int 2)] "apple"
          (Json.int (jsonQty (Json.obj [("apple", Json.int 2)]) "apple" + 3)))) "apple" =
        jsonQty (Json.obj [("apple", Json.int 2)]) "apple" + 3) :=
  ⟨rfl, by decide, by decide, Or.inr ⟨2, rfl⟩,
   add_item_valid_increments _ _ _ _ _ rfl (by decide) (by decide) (Or.inr ⟨2, rfl⟩)⟩

/-- Claim C5: for every item present in the mapping with stored integer
quantity n and every positive integer qty, `remove_item` subtracts qty;
if the result is ≤ 0 the entry is deleted from the mapping (over-removal
is not rejected), otherwise the reduced value is stored; it returns `True`
on both paths, and the log is unchanged. -/
theorem remove_item_present_subtracts (st : InventorySystem)
    (kvs : List (String × Json)) (s : String) (n q : Int)
    (hst : st.stock_data = Json.obj kvs)
    (hv : dictGet kvs s = some (Json.int n))
    (hq : 0 < q) :
    remove_item st (PyVal.str s) (PyVal.int q) =
      .ok (true, ⟨Json.obj (if n - q ≤ 0 then dictDel kvs s
          else dictSet kvs s (Json.int (n - q))), st.logs⟩) := by
  obtain ⟨sd, logs⟩ := st
  have hsd : sd = Json.obj kvs := hst
  subst hsd
  have hq2 : ¬ q ≤ 0 := not_le.mpr hq
  by_cases hnq : n - q ≤ 0
  · simp [remove_item, removeItemTry, isStrV, isIntV, pyIntVal, pyStrVal,
      hq2, hv, pySubInt, hnq]
  · simp [remove_item, removeItemTry, isStrV, isIntV, pyIntVal, pyStrVal,
      hq2, hv, pySubInt, hnq]

/-- Witness for claim C5: removing 15 from a stored 10 deletes the entry
and returns `True`; removing 3 from 10 leaves 7. -/
theorem remove_item_present_subtracts_witness :
    ((⟨Json.obj [("apple", Json.int 10)], ["l"]⟩ : InventorySystem).stock_data =
      Json.obj [("apple", Json.int 10)]) ∧
    dictGet [("apple", Json.int 10)] "apple" = some (Json.int 10) ∧
    (0 : Int) < 15 ∧
    remove_item ⟨Json.obj [("apple", Json.int 10)], ["l"]⟩ (PyVal.str "apple")
        (PyVal.int 15) =
      .ok (true, ⟨Json.obj (if (10 : Int) - 15 ≤ 0 then dictDel [("apple", Json.int 10)] "apple"
          else dictSet [("apple", Json.int 10)] "apple" (Json.int (10 - 15))), ["l"]⟩) :=
  ⟨rfl, rfl, by decide,
   remove_item_present_subtracts _ _ _ _ _ rfl rfl (by decide)⟩

/-- Claim C6: for every item absent from the mapping and every positive
integer qty, `remove_item` returns `False` and leaves the state (mapping
and log) unchanged. -/
theorem remove_item_absent_rejected (st : InventorySystem)
    (kvs : List (String × Json)) (s : String) (q : Int)
    (hst : st.stock_data = Json.obj kvs)
    (hv : dictGet kvs s = Option.none)
    (hq : 0 < q) :
    remove_item st (PyVal.str s) (PyVal.int q) = .ok (false, st) := by
  obtain ⟨sd, logs⟩ := st
  have hsd : sd = Json.obj kvs := hst
  subst hsd
  have hq2 : ¬ q ≤ 0 := not_le.mpr hq
  simp [remove_item, removeItemTry, isStrV, isIntV, pyIntVal, pyStrVal, hq2, hv]

/-- Witness for claim C6: removing an absent item fails without touching
the state. -/
theorem remove_item_absent_rejected_witness :
    ((⟨Json.obj [("apple", Json.int 10)], ["l"]⟩ : InventorySystem).stock_data =
      Json.obj [("apple", Json.int 10)]) ∧
    dictGet [("apple", Json.int 10)] "pear" = Option.none ∧
    (0 : Int) < 1 ∧
    remove_item ⟨Json.obj [("apple", Json.int 10)], ["l"]⟩ (PyVal.str "pear")
        (PyVal.int 1) =
      .ok (false, ⟨Json.obj [("apple", Json.int 10)], ["l"]⟩) :=
  ⟨rfl, rfl, by decide,
   remove_item_absent_rejected _ _ _ _ rfl rfl (by decide)⟩

/-- Claim C7: `load_data` returns `False` without raising in each failure
mode; a missing file additionally resets the in-memory mapping to an empty
dict (even when it had entries, the log being kept); malformed JSON and an
I/O read error also yield `False`. -/
theorem load_data_failure_modes (st : InventorySystem) :
    load_data st FileContent.fileNotFound = (false, ⟨Json.obj [], st.logs⟩) ∧
    load_data st FileContent.decodeError = (false, st) ∧
    load_data st FileContent.ioError = (false, st) :=
  ⟨rfl, rfl, rfl⟩

/-- Claim C8: for every in-memory state and writable path, `save_data`
followed immediately by `load_data` of the written file — into the same
instance or into any fresh one — reproduces exactly the saved mapping. -/
theorem save_load_roundtrip (st fresh : InventorySystem) (f : FileContent) :
    (save_data st true f).1 = true ∧
    load_data st (save_data st true f).2 = (true, st) ∧
    (load_data fresh (save_data st true f).2).2.stock_data = st.stock_data :=
  ⟨rfl, rfl, rfl⟩

/-- Claim C9: on a well-typed mapping, `check_low_items` with a
non-negative integer threshold returns exactly the set of items whose
quantity is strictly below the threshold; with a threshold that is not a
non-negative (Python) int it returns the empty list without raising, on
every state, even an ill-typed one. -/
theorem check_low_items_spec (st stBad : InventorySystem)
    (kvs : List (String × Json)) (tn : Int) (tBad : PyVal) (s : String)
    (hst : st.stock_data = Json.obj kvs)
    (hints : intVals kvs = true)
    (hnd : (kvs.map Prod.fst).Nodup)
    (ht : 0 ≤ tn)
    (hbad : isIntV tBad = false ∨ pyIntVal tBad < 0) :
    check_low_items st (PyVal.int tn) = .ok (lowFilter kvs tn) ∧
    (s ∈ lowFilter kvs tn ↔ ∃ n, dictGet kvs s = some (Json.int n) ∧ n < tn) ∧
    check_low_items stBad tBad = .ok [] := by
  refine ⟨?_, mem_lowFilter_iff hints hnd, ?_⟩
  · obtain ⟨sd, logs⟩ := st
    have hsd : sd = Json.obj kvs := hst
    subst hsd
    have ht2 : ¬ tn < 0 := not_lt.mpr ht
    simp [check_low_items, isIntV, pyIntVal, ht2, lowLoop_eq_lowFilter _ hints]
  · rcases hbad with hbad | hbad
    · simp [check_low_items, hbad]
    · simp [check_low_items, hbad]

/-- Witness for claim C9 on a two-item mapping with threshold 5, plus an
invalid threshold on an ill-typed state. -/
theorem check_low_items_spec_witness :
    ((⟨Json.obj [("apple", Json.int 7), ("banana", Json.int 3)], []⟩ : InventorySystem).stock_data =
      Json.obj [("apple", Json.int 7), ("banana", Json.int 3)]) ∧
    intVals [("apple", Json.int 7), ("banana", Json.int 3)] = true ∧
    ([("apple", Json.int 7), ("banana", Json.int 3)].map Prod.fst).Nodup ∧
    (0 : Int) ≤ 5 ∧
    (isIntV (PyVal.str "x") = false ∨ pyIntVal (PyVal.str "x") < 0) ∧
    (check_low_items ⟨Json.obj [("apple", Json.int 7), ("banana", Json.int 3)], []⟩
        (PyVal.int 5) = .ok (lowFilter [("apple", Json.int 7), ("banana", Json.int 3)] 5) ∧
      ("banana" ∈ lowFilter [("apple", Json.int 7), ("banana", Json.int 3)] 5 ↔
        ∃ n, dictGet [("apple", Json.int 7), ("banana", Json.int 3)] "banana" =
          some (Json.int n) ∧ n < 5) ∧
      check_low_items ⟨Json.arr [Json.int 1], ["log"]⟩ (PyVal.str "x") = .ok []) :=
  ⟨rfl, rfl, by decide, by decide, Or.inl rfl,
   check_low_items_spec _ _ _ _ _ _ rfl rfl (by decide) (by decide) (Or.inl rfl)⟩

/-- Claim C10: when the file exists but holds malformed JSON, and when an
I/O error occurs while reading an existing file, `load_data` leaves the
whole in-memory state exactly as it was; only the missing-file case resets
the mapping to empty. -/
theorem load_data_error_preserves_state (st : InventorySystem) :
    (load_data st FileContent.decodeError).2 = st ∧
    (load_data st FileContent.ioError).2 = st ∧
    (load_data st FileContent.fileNotFound).2.stock_data = Json.obj [] :=
  ⟨rfl, rfl, rfl⟩
